import Mathlib

/-!
Verification of the course-reader progress/bookmark subsystem
(`src/pages/CourseReader.tsx`).

The TypeScript component is shallowly embedded: React `useState` records
become explicit state values, the `useEffect` load effects become pure
functions from the outcomes of their remote fetches and local-cache reads
to the resulting state, and fire-and-forget remote writes (which never
influence local state) are dropped.  JavaScript `Record<string, _>` maps
read with a `|| 0` / missing-key default are embedded as total functions
with that default; `Set<number>` becomes `Finset ℕ`.  A `localStorage`
entry is `absent` (key missing), `malformed` (present but `JSON.parse`
throws), or `stored v` (parses to `v`); an uncaught parse exception is
recorded in a `raised` flag on the effect's outcome, since the React state
updates issued before the throw still apply.
-/

/-- `Topic` from CourseReader.tsx: `{_id, title, images}`. -/
structure Topic where
  _id : String
  title : String
  images : List String
deriving DecidableEq, Inhabited

/-- `Course` from CourseReader.tsx: `{_id, title, topics, price?, userHasAccess?}`. -/
structure Course where
  _id : String
  title : String
  topics : List Topic
  price : Option Nat
  userHasAccess : Option Bool
deriving DecidableEq, Inhabited

/-- `buildFallbackTopics` (lines 64-107): the fixed 8-topic fallback,
each topic's images built as `Array.from({length: n}, (_, i) => url(start + i))`. -/
def buildFallbackTopics : List Topic :=
  [ { _id := "t1", title := "Introduction",
      images := (List.range 17).map (fun i => "/course/" ++ toString (2 + i) ++ ".jpeg") },
    { _id := "t2", title := "Understanding Doji Candles",
      images := (List.range 4).map (fun i => "/course/" ++ toString (19 + i) ++ ".jpeg") },
    { _id := "t3", title := "The \"Dicy Reversal\" Setup",
      images := (List.range 7).map (fun i => "/course/" ++ toString (23 + i) ++ ".jpeg") },
    { _id := "t4", title := "Entry & Exit Rules",
      images := (List.range 5).map (fun i => "/course/" ++ toString (30 + i) ++ ".jpeg") },
    { _id := "t5", title := "Risk Management",
      images := (List.range 13).map (fun i => "/course/" ++ toString (35 + i) ++ ".jpeg") },
    { _id := "t6", title := "Practical Examples",
      images := (List.range 5).map (fun i => "/course/" ++ toString (48 + i) ++ ".jpeg") },
    { _id := "t7", title := "Final Thoughts",
      images := (List.range 4).map (fun i => "/course/" ++ toString (53 + i) ++ ".jpeg") },
    { _id := "t8", title := "Author\x27s Message",
      images := (List.range 2).map (fun i => "/course/" ++ toString (57 + i) ++ ".jpeg") } ]

/-- The fallback `Course` object built in both the no-data branch (lines 121-127)
and the network-error branch (lines 171-177). -/
def fallbackCourse (courseId : String) : Course :=
  { _id := courseId,
    title := "Option Analysis Strategy by A. Bhattacharjee",
    topics := buildFallbackTopics,
    price := some 1499,
    userHasAccess := some true }

/-- Outcome of an awaited `apiClient` call: `err` models a thrown
network/non-2xx error, `ok a` a successful response carrying `a`. -/
inductive FetchResult (α : Type) where
  | err
  | ok (a : α)
deriving DecidableEq

/-- A `localStorage` entry for one key: missing, present-but-unparsable
(`JSON.parse` throws), or parsed to a value. -/
inductive CacheEntry (α : Type) where
  | absent
  | malformed
  | stored (a : α)
deriving DecidableEq

/-- Parsed notes payload `Record<string, Record<number, string>>`, as a
total function with missing-entry default `none`. -/
def NotesMap : Type := String → Nat → Option String

/-- The per-topic percent record built in the fallback branches:
`p[t._id] = completedTopics[t._id] ? 100 : 0` over the topic list, read
back through `progress[x] || 0`. -/
def initProgress (ts : List Topic) (completed : String → Bool) : String → Nat :=
  fun tid => if ts.any (fun t => t._id == tid) && completed tid then 100 else 0

/-- The component state set by the course-load effect, plus a `raised`
flag recording an uncaught `JSON.parse` exception escaping the async effect. -/
structure CourseLoadOutcome where
  course : Option Course
  topics : List Topic
  progress : String → Nat
  notes : NotesMap
  raised : Bool

/-- The course-load effect (lines 110-191).  Branch structure of the source:
an outer `try` fetches the course; `ok none` takes the early-return fallback
(no progress/notes fetch); `ok (some c)` substitutes the fallback topics when
`c.topics` is empty, then fetches progress (inner catch: `initProgress`) and
notes (inner catch: read `notes_{courseId}` from localStorage — a malformed
entry makes `JSON.parse` throw, which the *outer* catch then handles by
rebuilding the fallback course and parsing the same malformed entry again,
this time uncaught); `err` takes the outer catch directly, where a malformed
notes entry likewise throws uncaught. -/
def courseLoadEffect (courseId : String)
    (remoteCourse : FetchResult (Option Course))
    (remoteProgress : FetchResult (String → Nat))
    (remoteNotes : FetchResult NotesMap)
    (notesCache : CacheEntry NotesMap)
    (completedTopics : String → Bool) : CourseLoadOutcome :=
  match remoteCourse with
  | .err =>
    let fb := fallbackCourse courseId
    let base : CourseLoadOutcome :=
      { course := some fb, topics := fb.topics,
        progress := initProgress fb.topics completedTopics,
        notes := fun _ _ => none, raised := false }
    match notesCache with
    | .absent => base
    | .malformed => { base with raised := true }
    | .stored n => { base with notes := n }
  | .ok none =>
    let fb := fallbackCourse courseId
    { course := some fb, topics := fb.topics,
      progress := initProgress fb.topics completedTopics,
      notes := fun _ _ => none, raised := false }
  | .ok (some c0) =>
    let c := if c0.topics.isEmpty then { c0 with topics := buildFallbackTopics } else c0
    let prog : String → Nat :=
      match remoteProgress with
      | .ok m => m
      | .err => initProgress c.topics completedTopics
    match remoteNotes with
    | .ok n =>
      { course := some c, topics := c.topics, progress := prog, notes := n, raised := false }
    | .err =>
      match notesCache with
      | .absent =>
        { course := some c, topics := c.topics, progress := prog,
          notes := fun _ _ => none, raised := false }
      | .stored n =>
        { course := some c, topics := c.topics, progress := prog, notes := n, raised := false }
      | .malformed =>
        let fb := fallbackCourse courseId
        { course := some fb, topics := fb.topics,
          progress := initProgress fb.topics completedTopics,
          notes := fun _ _ => none, raised := true }

/-- `isLocked` (line 528): `!!course && course.userHasAccess === false`. -/
def isLocked (course : Option Course) : Bool :=
  match course with
  | none => false
  | some c => c.userHasAccess == some false

/-- The `(activeTopicIndex, currentPage)` pair set by the bookmark effect. -/
structure ReaderPos where
  topicIndex : Nat
  page : Nat
deriving DecidableEq, Inhabited

/-- A bookmark payload `{topicId, imageIndex}`. -/
structure BookmarkData where
  topicId : String
  imageIndex : Nat
deriving DecidableEq, Inhabited

/-- Result of the bookmark-load effect: the position state plus a flag for
an uncaught `JSON.parse` exception. -/
structure BookmarkLoadOutcome where
  pos : ReaderPos
  raised : Bool
deriving DecidableEq

/-- `topics.findIndex((t) => t._id === topicId)`, with `none` for `-1`. -/
def findTopicIndex (topics : List Topic) (tid : String) : Option Nat :=
  topics.findIdx? (fun t => t._id == tid)

/-- The bookmark-load effect (lines 273-303).  `try`: fetch the bookmark;
a non-null bookmark with a known topic id is applied verbatim
(`setCurrentPage(bm.imageIndex)` — no range check), an unknown topic id or
a null bookmark leaves the position unchanged (no cache read).  `catch`:
read `bookmark_{courseId}` from localStorage; `JSON.parse` of a malformed
entry throws uncaught; a parsed bookmark is applied under the same
topic-id check. -/
def loadBookmarkEffect (topics : List Topic)
    (remote : FetchResult (Option BookmarkData))
    (cache : CacheEntry BookmarkData)
    (s : ReaderPos) : BookmarkLoadOutcome :=
  match remote with
  | .ok bm =>
    match bm with
    | some b =>
      match findTopicIndex topics b.topicId with
      | some i => ⟨⟨i, b.imageIndex⟩, false⟩
      | none => ⟨s, false⟩
    | none => ⟨s, false⟩
  | .err =>
    match cache with
    | .absent => ⟨s, false⟩
    | .malformed => ⟨s, true⟩
    | .stored b =>
      match findTopicIndex topics b.topicId with
      | some i => ⟨⟨i, b.imageIndex⟩, false⟩
      | none => ⟨s, false⟩

/-- `topics.find((t) => t._id === topicId)`. -/
def findTopic (topics : List Topic) (tid : String) : Option Topic :=
  topics.find? (fun t => t._id == tid)

/-- The viewed-page effect (lines 312-334): insert the current page into
the active topic's set (creating an empty set for a missing key). -/
def markPageViewed (vp : String → Finset Nat) (topicId : String) (page : Nat) :
    String → Finset Nat :=
  fun k => if k = topicId then insert page (vp topicId) else vp k

/-- The viewed-pages update of `markTopicComplete` (lines 389-404):
`updated[topicId] = new Set(topic.images.map((_, i) => i))` when
`topics.find` succeeds, otherwise no change. -/
def completeTopicVP (topics : List Topic) (vp : String → Finset Nat) (tid : String) :
    String → Finset Nat :=
  match findTopic topics tid with
  | some t => fun k => if k = tid then Finset.range t.images.length else vp k
  | none => vp

/-- The reader state mutated by completion actions. -/
structure ReaderState where
  progress : String → Nat
  viewedPages : String → Finset Nat
  completedTopics : String → Bool
  activeTopicIndex : Nat
  currentPage : Nat

/-- Result of `markTopicComplete`: the new state and whether the
course-completed toast fired (the no-next-topic branch). -/
structure CompleteResult where
  state : ReaderState
  courseCompletedToast : Bool

/-- `markTopicComplete` (lines 377-429): set progress to 100 and the
completed flag, fill the topic's viewed set with its full index range,
then advance `activeTopicIndex` (resetting the page to 0) when
`activeTopicIndex + 1 < topics.length`, else fire the course-completed
toast and leave the position unchanged. -/
def markTopicComplete (topics : List Topic) (s : ReaderState) (topicId : String) :
    CompleteResult :=
  let s1 : ReaderState :=
    { s with
      progress := fun k => if k = topicId then 100 else s.progress k,
      completedTopics := fun k => if k = topicId then true else s.completedTopics k,
      viewedPages := completeTopicVP topics s.viewedPages topicId }
  if s.activeTopicIndex + 1 < topics.length then
    ⟨{ s1 with activeTopicIndex := s.activeTopicIndex + 1, currentPage := 0 }, false⟩
  else
    ⟨s1, true⟩

/-- Result of the auto-complete effect: the new state and whether the
topic-completed toast fired. -/
structure AutoResult where
  state : ReaderState
  topicCompletedToast : Bool

/-- The auto-complete effect (lines 432-481): when the current page equals
`activeTopic.images.length - 1` (JavaScript arithmetic, so `-1` for an
empty topic never matches a `Nat` page) and `progress[activeTopic._id] || 0`
is below 100, set progress to 100, fill the viewed set with the full index
range and set the completed flag — without touching `activeTopicIndex` or
`currentPage`. -/
def autoCompleteEffect (topics : List Topic) (s : ReaderState) : AutoResult :=
  match topics[s.activeTopicIndex]? with
  | none => ⟨s, false⟩
  | some t =>
    if (s.currentPage : Int) = (t.images.length : Int) - 1 ∧ s.progress t._id < 100 then
      ⟨{ s with
          progress := fun k => if k = t._id then 100 else s.progress k,
          viewedPages := fun k => if k = t._id then Finset.range t.images.length
                                  else s.viewedPages k,
          completedTopics := fun k => if k = t._id then true else s.completedTopics k },
        true⟩
    else ⟨s, false⟩

/-- JavaScript `Math.round` on an exact rational: half-up rounding
`⌊x + 1/2⌋`. -/
def jsRound (x : ℚ) : ℤ := Int.floor (x + 1 / 2)

/-- The `totalPages` accumulator of `weightedProgress` (lines 338-343):
`totalPages += topic.images.length` over the topic list. -/
def totalPagesOf (topics : List Topic) : Nat :=
  (topics.map (fun t => t.images.length)).sum

/-- The `viewedCount` accumulator of `weightedProgress` (lines 339-346):
`viewedCount += viewedPages[topic._id]?.size || 0` over the topic list. -/
def viewedCountOf (topics : List Topic) (vp : String → Finset Nat) : Nat :=
  (topics.map (fun t => (vp t._id).card)).sum

/-- `weightedProgress` (lines 337-350): 0 when the total page count is 0,
else `Math.round((viewedCount / totalPages) * 100)`. -/
def weightedProgress (topics : List Topic) (vp : String → Finset Nat) : ℤ :=
  if totalPagesOf topics = 0 then 0
  else jsRound (((viewedCountOf topics vp : ℚ) / (totalPagesOf topics : ℚ)) * 100)

/-- Modelled from the spec: `round(100 * Σ|viewedPages[t]| / Σ pageCount(t))`
over all topics, with division-by-zero (no topics) yielding 0.  Stated with
Mathlib's `round` for comparison with the source's `weightedProgress`. -/
def overallProgressSpec (topics : List Topic) (vp : String → Finset Nat) : ℤ :=
  if totalPagesOf topics = 0 then 0
  else round ((100 * (viewedCountOf topics vp : ℚ)) / (totalPagesOf topics : ℚ))

/-- An abstract call to one of the two progress mutators. -/
inductive ProgressOp where
  | viewPage (topicId : String) (page : Nat)
  | completeTopic (topicId : String)
deriving DecidableEq

/-- Argument validity: a viewed page index lies inside the range of the
topic found for its id; completion carries no page argument. -/
def validOp (topics : List Topic) : ProgressOp → Bool
  | .viewPage tid p =>
    match findTopic topics tid with
    | some t => p < t.images.length
    | none => false
  | .completeTopic _ => true

/-- Action of a `ProgressOp` on the viewed-pages map, via the same
definitions that embed the two source mutators. -/
def applyOpVP (topics : List Topic) (vp : String → Finset Nat) : ProgressOp → (String → Finset Nat)
  | .viewPage tid p => markPageViewed vp tid p
  | .completeTopic tid => completeTopicVP topics vp tid

/-- Run a sequence of progress operations left to right. -/
def runOps (topics : List Topic) (ops : List ProgressOp) (vp : String → Finset Nat) :
    String → Finset Nat :=
  ops.foldl (fun acc op => applyOpVP topics acc op) vp

/-- Range-validity invariant on the viewed-pages map (spec §3): each
topic's set is a subset of its page-index range. -/
def VPInv (topics : List Topic) (vp : String → Finset Nat) : Prop :=
  ∀ tid t, findTopic topics tid = some t → vp tid ⊆ Finset.range t.images.length

/-- The empty viewed-pages map (initial state). -/
def vpEmpty : String → Finset Nat := fun _ => ∅

/-- Page-url range `a–b` as the spec describes the fallback partition:
the urls of page numbers `a, a+1, …, b`. -/
def fbUrls (a b : Nat) : List String :=
  (List.range' a (b + 1 - a)).map (fun n => "/course/" ++ toString n ++ ".jpeg")

/-- A fresh reader state: nothing viewed, nothing completed, position at
topic 0, a non-zero current page to make frame conditions visible. -/
def sEx : ReaderState :=
  { progress := fun _ => 0, viewedPages := vpEmpty,
    completedTopics := fun _ => false, activeTopicIndex := 0, currentPage := 5 }

/-- A reader state sitting on the last page (index 16) of fallback topic 1. -/
def sLast : ReaderState :=
  { progress := fun _ => 0, viewedPages := vpEmpty,
    completedTopics := fun _ => false, activeTopicIndex := 0, currentPage := 16 }

/-- A sample valid operation sequence on the fallback course. -/
def opsEx : List ProgressOp :=
  [.viewPage "t1" 0, .completeTopic "t2", .viewPage "t3" 2]

/-- `Math.round` of an exact non-negative ratio, as a natural division;
also valid when `t = 0` (both sides are 0). -/
theorem jsRound_natCast_div (v t : Nat) :
    jsRound ((v : ℚ) / (t : ℚ) * 100) = (((200 * v + t) / (2 * t) : Nat) : ℤ) := by
  rcases Nat.eq_zero_or_pos t with rfl | ht
  · norm_num [jsRound]
  · have ht' : (t : ℚ) ≠ 0 := Nat.cast_ne_zero.mpr ht.ne'
    have h : (v : ℚ) / (t : ℚ) * 100 + 1 / 2
        = ((200 * v + t : Nat) : ℚ) / ((2 * t : Nat) : ℚ) := by
      push_cast
      field_simp
      ring
    rw [jsRound, h, Rat.floor_natCast_div_natCast]
    exact_mod_cast rfl

example : weightedProgress buildFallbackTopics (markPageViewed vpEmpty "t1" 0) = 2 := by
  have h0 : totalPagesOf buildFallbackTopics = 57 := by decide
  have h1 : viewedCountOf buildFallbackTopics (markPageViewed vpEmpty "t1" 0) = 1 := by decide
  rw [weightedProgress, h0, h1, if_neg (by norm_num), jsRound_natCast_div 1 57]
  norm_num

/-- C1: for every loaded course, `weightedProgress` agrees with the spec's
`round(100 * Σ|viewedPages[t]| / Σ pageCount(t))` over all topics of the
course, division-by-zero (no topics, total page count 0) yielding 0 — the
0-case being built into `overallProgressSpec` exactly as the spec states it. -/
theorem weightedProgress_matches_spec (topics : List Topic) (vp : String → Finset Nat) :
    weightedProgress topics vp = overallProgressSpec topics vp := by
  by_cases h : totalPagesOf topics = 0
  · simp [weightedProgress, overallProgressSpec, h]
  · simp only [weightedProgress, overallProgressSpec, if_neg h]
    rw [jsRound, round_eq]
    congr 1
    ring

/-- C2: whenever the remote fetch fails, returns no course, or returns a
course with zero topics, the load effect installs the fixed 8-topic fallback:
topic ids `t1`–`t8` with the stated titles, page counts 17/4/7/5/13/5/4/2,
and image ranges 2–18, 19–22, 23–29, 30–34, 35–47, 48–52, 53–56, 57–58.
Since `courseLoadEffect` is a pure function, repeated calls yield the
identical structure. -/
theorem loadCourse_fallback_fixed (cid : String)
    (rp : FetchResult (String → Nat)) (rn : FetchResult NotesMap)
    (nc : CacheEntry NotesMap) (ct : String → Bool)
    (rc : FetchResult (Option Course))
    (h : rc = .err ∨ rc = .ok none ∨ ∃ c, rc = .ok (some c) ∧ c.topics = []) :
    (courseLoadEffect cid rc rp rn nc ct).topics = buildFallbackTopics ∧
    buildFallbackTopics.map (fun t => (t._id, t.title)) =
      [("t1", "Introduction"), ("t2", "Understanding Doji Candles"),
       ("t3", "The \"Dicy Reversal\" Setup"), ("t4", "Entry & Exit Rules"),
       ("t5", "Risk Management"), ("t6", "Practical Examples"),
       ("t7", "Final Thoughts"), ("t8", "Author\x27s Message")] ∧
    buildFallbackTopics.map (fun t => t.images.length) = [17, 4, 7, 5, 13, 5, 4, 2] ∧
    buildFallbackTopics.map (fun t => t.images) =
      [fbUrls 2 18, fbUrls 19 22, fbUrls 23 29, fbUrls 30 34,
       fbUrls 35 47, fbUrls 48 52, fbUrls 53 56, fbUrls 57 58] := by
  refine ⟨?_, by decide, by decide, by decide⟩
  rcases h with rfl | rfl | ⟨c, rfl, hc⟩
  · cases nc <;> rfl
  · rfl
  · have hemp : c.topics.isEmpty = true := by simp [hc]
    cases rn <;> cases nc <;> simp [courseLoadEffect, hemp, fallbackCourse]

/-- Witness for C2 at a concrete failing fetch. -/
theorem loadCourse_fallback_fixed_witness :
    (courseLoadEffect "course1" .err .err .err .absent (fun _ => false)).topics
      = buildFallbackTopics ∧
    buildFallbackTopics.map (fun t => (t._id, t.title)) =
      [("t1", "Introduction"), ("t2", "Understanding Doji Candles"),
       ("t3", "The \"Dicy Reversal\" Setup"), ("t4", "Entry & Exit Rules"),
       ("t5", "Risk Management"), ("t6", "Practical Examples"),
       ("t7", "Final Thoughts"), ("t8", "Author\x27s Message")] ∧
    buildFallbackTopics.map (fun t => t.images.length) = [17, 4, 7, 5, 13, 5, 4, 2] ∧
    buildFallbackTopics.map (fun t => t.images) =
      [fbUrls 2 18, fbUrls 19 22, fbUrls 23 29, fbUrls 30 34,
       fbUrls 35 47, fbUrls 48 52, fbUrls 53 56, fbUrls 57 58] :=
  loadCourse_fallback_fixed "course1" .err .err .absent (fun _ => false) .err (Or.inl rfl)

/-- C3: inserting a viewed page is idempotent — a second identical
`markPageViewed` call leaves the whole viewed-pages map unchanged. -/
theorem markPageViewed_idem (topics : List Topic) (vp : String → Finset Nat)
    (tid : String) (p : Nat) (_hv : validOp topics (.viewPage tid p) = true) :
    markPageViewed (markPageViewed vp tid p) tid p = markPageViewed vp tid p := by
  funext k
  by_cases h : k = tid <;> simp [markPageViewed, h]

/-- Witness for C3 on the fallback course. -/
theorem markPageViewed_idem_witness :
    validOp buildFallbackTopics (.viewPage "t1" 3) = true ∧
    markPageViewed (markPageViewed vpEmpty "t1" 3) "t1" 3 = markPageViewed vpEmpty "t1" 3 :=
  ⟨by decide, markPageViewed_idem buildFallbackTopics vpEmpty "t1" 3 (by decide)⟩

/-- C10: when the catalog fetch fails or returns no course, the fallback
course is built with `userHasAccess: true`, so `isLocked` — which requires
`userHasAccess === false` — is false and the locked overlay cannot show. -/
theorem fallback_course_unlocked (cid : String)
    (rp : FetchResult (String → Nat)) (rn : FetchResult NotesMap)
    (nc : CacheEntry NotesMap) (ct : String → Bool)
    (rc : FetchResult (Option Course)) (h : rc = .err ∨ rc = .ok none) :
    ((courseLoadEffect cid rc rp rn nc ct).course.map Course.userHasAccess)
      = some (some true) ∧
    isLocked (courseLoadEffect cid rc rp rn nc ct).course = false := by
  rcases h with rfl | rfl
  · cases nc <;> simp [courseLoadEffect, fallbackCourse, isLocked]
  · simp [courseLoadEffect, fallbackCourse, isLocked]

/-- Witness for C10 at a concrete failing fetch. -/
theorem fallback_course_unlocked_witness :
    ((courseLoadEffect "course1" .err .err .err .absent (fun _ => false)).course.map
      Course.userHasAccess) = some (some true) ∧
    isLocked (courseLoadEffect "course1" .err .err .err .absent (fun _ => false)).course
      = false :=
  fallback_course_unlocked "course1" .err .err .absent (fun _ => false) .err (Or.inl rfl)

/-- C5: after `markTopicComplete(t)` for the topic found under id `t._id`:
the completed flag is set, the viewed set becomes the full index range
`[0, pageCount(t))` (so its size equals the page count), the active topic
advances by one with the page reset to 0 when a next topic exists, and
otherwise position is unchanged and the course-completed toast fires (the
operation is total, so completion is signalled without error). -/
theorem markTopicComplete_spec (topics : List Topic) (s : ReaderState) (t : Topic)
    (h : findTopic topics t._id = some t) :
    (markTopicComplete topics s t._id).state.completedTopics t._id = true ∧
    (markTopicComplete topics s t._id).state.viewedPages t._id
      = Finset.range t.images.length ∧
    ((markTopicComplete topics s t._id).state.viewedPages t._id).card
      = t.images.length ∧
    (s.activeTopicIndex + 1 < topics.length →
      (markTopicComplete topics s t._id).state.activeTopicIndex = s.activeTopicIndex + 1 ∧
      (markTopicComplete topics s t._id).state.currentPage = 0 ∧
      (markTopicComplete topics s t._id).courseCompletedToast = false) ∧
    (¬ (s.activeTopicIndex + 1 < topics.length) →
      (markTopicComplete topics s t._id).state.activeTopicIndex = s.activeTopicIndex ∧
      (markTopicComplete topics s t._id).state.currentPage = s.currentPage ∧
      (markTopicComplete topics s t._id).courseCompletedToast = true) := by
  have hvp : completeTopicVP topics s.viewedPages t._id t._id
      = Finset.range t.images.length := by
    simp [completeTopicVP, h]
  by_cases hadv : s.activeTopicIndex + 1 < topics.length <;>
    simp [markTopicComplete, hadv, hvp, Finset.card_range]

/-- Witness for C5: completing fallback topic 1 from a fresh state. -/
theorem markTopicComplete_spec_witness :
    findTopic buildFallbackTopics (buildFallbackTopics[0]!)._id
      = some (buildFallbackTopics[0]!) ∧
    ((markTopicComplete buildFallbackTopics sEx
        (buildFallbackTopics[0]!)._id).state.completedTopics
          (buildFallbackTopics[0]!)._id = true ∧
      (markTopicComplete buildFallbackTopics sEx
        (buildFallbackTopics[0]!)._id).state.viewedPages (buildFallbackTopics[0]!)._id
          = Finset.range (buildFallbackTopics[0]!).images.length ∧
      ((markTopicComplete buildFallbackTopics sEx
        (buildFallbackTopics[0]!)._id).state.viewedPages
          (buildFallbackTopics[0]!)._id).card = (buildFallbackTopics[0]!).images.length ∧
      (sEx.activeTopicIndex + 1 < buildFallbackTopics.length →
        (markTopicComplete buildFallbackTopics sEx
          (buildFallbackTopics[0]!)._id).state.activeTopicIndex
            = sEx.activeTopicIndex + 1 ∧
        (markTopicComplete buildFallbackTopics sEx
          (buildFallbackTopics[0]!)._id).state.currentPage = 0 ∧
        (markTopicComplete buildFallbackTopics sEx
          (buildFallbackTopics[0]!)._id).courseCompletedToast = false) ∧
      (¬ (sEx.activeTopicIndex + 1 < buildFallbackTopics.length) →
        (markTopicComplete buildFallbackTopics sEx
          (buildFallbackTopics[0]!)._id).state.activeTopicIndex = sEx.activeTopicIndex ∧
        (markTopicComplete buildFallbackTopics sEx
          (buildFallbackTopics[0]!)._id).state.currentPage = sEx.currentPage ∧
        (markTopicComplete buildFallbackTopics sEx
          (buildFallbackTopics[0]!)._id).courseCompletedToast = true)) :=
  ⟨by decide, markTopicComplete_spec buildFallbackTopics sEx (buildFallbackTopics[0]!)
    (by decide)⟩

/-- C6: when the current page is the last page index of the active topic and
its recorded progress is below 100, the auto-complete effect fills the
viewed set with the same full index range as explicit completion, sets
progress to 100 and the completed flag — and leaves both the active topic
index and the current page unchanged (no auto-advance). -/
theorem autoComplete_no_advance (topics : List Topic) (s : ReaderState) (t : Topic)
    (hactive : topics[s.activeTopicIndex]? = some t)
    (hlast : (s.currentPage : Int) = (t.images.length : Int) - 1)
    (hprog : s.progress t._id < 100)
    (hfind : findTopic topics t._id = some t) :
    (autoCompleteEffect topics s).state.viewedPages t._id
      = Finset.range t.images.length ∧
    (autoCompleteEffect topics s).state.viewedPages t._id
      = (markTopicComplete topics s t._id).state.viewedPages t._id ∧
    (autoCompleteEffect topics s).state.completedTopics t._id = true ∧
    (autoCompleteEffect topics s).state.progress t._id = 100 ∧
    (autoCompleteEffect topics s).state.activeTopicIndex = s.activeTopicIndex ∧
    (autoCompleteEffect topics s).state.currentPage = s.currentPage ∧
    (autoCompleteEffect topics s).topicCompletedToast = true := by
  have hvp : completeTopicVP topics s.viewedPages t._id t._id
      = Finset.range t.images.length := by
    simp [completeTopicVP, hfind]
  have hauto : autoCompleteEffect topics s
      = ⟨{ s with
            progress := fun k => if k = t._id then 100 else s.progress k,
            viewedPages := fun k => if k = t._id then Finset.range t.images.length
                                    else s.viewedPages k,
            completedTopics := fun k => if k = t._id then true else s.completedTopics k },
          true⟩ := by
    rw [autoCompleteEffect, hactive]
    exact if_pos ⟨hlast, hprog⟩
  rw [hauto]
  by_cases hadv : s.activeTopicIndex + 1 < topics.length <;>
    simp [markTopicComplete, hadv, hvp]

/-- Witness for C6: landing on page 16 (the last page) of fallback topic 1. -/
theorem autoComplete_no_advance_witness :
    buildFallbackTopics[sLast.activeTopicIndex]? = some (buildFallbackTopics[0]!) ∧
    (sLast.currentPage : Int) = ((buildFallbackTopics[0]!).images.length : Int) - 1 ∧
    sLast.progress (buildFallbackTopics[0]!)._id < 100 ∧
    ((autoCompleteEffect buildFallbackTopics sLast).state.viewedPages
        (buildFallbackTopics[0]!)._id
       = Finset.range (buildFallbackTopics[0]!).images.length ∧
     (autoCompleteEffect buildFallbackTopics sLast).state.viewedPages
        (buildFallbackTopics[0]!)._id
       = (markTopicComplete buildFallbackTopics sLast
            (buildFallbackTopics[0]!)._id).state.viewedPages (buildFallbackTopics[0]!)._id ∧
     (autoCompleteEffect buildFallbackTopics sLast).state.completedTopics
        (buildFallbackTopics[0]!)._id = true ∧
     (autoCompleteEffect buildFallbackTopics sLast).state.progress
        (buildFallbackTopics[0]!)._id = 100 ∧
     (autoCompleteEffect buildFallbackTopics sLast).state.activeTopicIndex
        = sLast.activeTopicIndex ∧
     (autoCompleteEffect buildFallbackTopics sLast).state.currentPage
        = sLast.currentPage ∧
     (autoCompleteEffect buildFallbackTopics sLast).topicCompletedToast = true) :=
  ⟨by decide, by decide, by decide,
   autoComplete_no_advance buildFallbackTopics sLast (buildFallbackTopics[0]!)
     (by decide) (by decide) (by decide) (by decide)⟩

/-- Counterexample to C7: a remote bookmark for topic `t1` (17 pages) with
page index 999 is applied verbatim — `currentPage` becomes 999, far outside
`[0, 17)`; nothing clamps it and it is not treated as absent. -/
theorem bookmark_not_clamped_cex :
    loadBookmarkEffect buildFallbackTopics (.ok (some ⟨"t1", 999⟩)) .absent ⟨0, 0⟩
      = ⟨⟨0, 999⟩, false⟩ ∧
    (buildFallbackTopics.map (fun t => t.images.length)).headD 0 = 17 ∧
    ¬ (999 < 17) := by decide

/-- C7 as amended: a bookmark whose `topicId` is not in the loaded course is
treated as absent without error, but the page index of a bookmark with a
known topic id is applied exactly as received — no clamping, no range
validation. -/
theorem bookmark_topicId_validation (topics : List Topic) (b : BookmarkData)
    (cache : CacheEntry BookmarkData) (s : ReaderPos) :
    (findTopicIndex topics b.topicId = none →
      loadBookmarkEffect topics (.ok (some b)) cache s = ⟨s, false⟩) ∧
    (∀ i, findTopicIndex topics b.topicId = some i →
      loadBookmarkEffect topics (.ok (some b)) cache s = ⟨⟨i, b.imageIndex⟩, false⟩) := by
  constructor
  · intro h
    simp [loadBookmarkEffect, h]
  · intro i h
    simp [loadBookmarkEffect, h]

/-- Witness for the amended C7: an unknown topic id is ignored. -/
theorem bookmark_topicId_validation_witness :
    findTopicIndex buildFallbackTopics "zzz" = none ∧
    loadBookmarkEffect buildFallbackTopics (.ok (some ⟨"zzz", 5⟩)) .absent ⟨0, 0⟩
      = ⟨⟨0, 0⟩, false⟩ :=
  ⟨by decide,
   (bookmark_topicId_validation buildFallbackTopics ⟨"zzz", 5⟩ .absent ⟨0, 0⟩).1 (by decide)⟩

/-- Counterexample to C8: the remote call succeeds with a null bookmark
while the local cache holds a valid bookmark for topic `t2`; the cache is
never read and the position stays at the default, instead of becoming
`(1, 1)` as the claim requires. -/
theorem bookmark_null_remote_cex :
    loadBookmarkEffect buildFallbackTopics (.ok none) (.stored ⟨"t2", 1⟩) ⟨0, 0⟩
      = ⟨⟨0, 0⟩, false⟩ ∧
    findTopicIndex buildFallbackTopics "t2" = some 1 ∧
    loadBookmarkEffect buildFallbackTopics (.ok none) (.stored ⟨"t2", 1⟩) ⟨0, 0⟩
      ≠ ⟨⟨1, 1⟩, false⟩ := by decide

/-- C8 as amended: the local cache is consulted only when the remote call
throws; a successful remote response carrying a null (absent) bookmark
leaves the position unchanged without touching the cache, while on remote
failure a cached bookmark with a known topic id is applied. -/
theorem bookmark_cache_only_on_failure (topics : List Topic)
    (cache : CacheEntry BookmarkData) (s : ReaderPos) :
    (loadBookmarkEffect topics (.ok none) cache s = ⟨s, false⟩) ∧
    (∀ b i, cache = .stored b → findTopicIndex topics b.topicId = some i →
      loadBookmarkEffect topics .err cache s = ⟨⟨i, b.imageIndex⟩, false⟩) := by
  constructor
  · rfl
  · rintro b i rfl h
    simp [loadBookmarkEffect, h]

/-- Witness for the amended C8 on the fallback course. -/
theorem bookmark_cache_only_on_failure_witness :
    loadBookmarkEffect buildFallbackTopics (.ok none) (.stored ⟨"t2", 1⟩) ⟨0, 0⟩
      = ⟨⟨0, 0⟩, false⟩ ∧
    loadBookmarkEffect buildFallbackTopics .err (.stored ⟨"t2", 1⟩) ⟨0, 0⟩
      = ⟨⟨1, 1⟩, false⟩ :=
  ⟨(bookmark_cache_only_on_failure buildFallbackTopics (.stored ⟨"t2", 1⟩) ⟨0, 0⟩).1,
   (bookmark_cache_only_on_failure buildFallbackTopics (.stored ⟨"t2", 1⟩) ⟨0, 0⟩).2
     ⟨"t2", 1⟩ 1 rfl (by decide)⟩

/-- Counterexample to C9: with the remote store failing and a malformed
(non-JSON) string cached under the subsystem's bookmark key (resp. notes
key), both the bookmark-load effect and the course-load effect raise an
uncaught `JSON.parse` exception. -/
theorem malformed_cache_raises_cex :
    (loadBookmarkEffect buildFallbackTopics .err .malformed ⟨0, 0⟩).raised = true ∧
    (courseLoadEffect "course1" .err .err .err .malformed (fun _ => false)).raised
      = true := by
  exact ⟨rfl, rfl⟩

/-- C9 as amended: no exception propagates from remote failures themselves —
as long as the cached strings under the notes and bookmark keys parse (are
absent or well-formed), both load effects complete without raising for every
combination of remote outcomes. -/
theorem load_effects_no_raise (cid : String) (topics : List Topic)
    (rc : FetchResult (Option Course)) (rp : FetchResult (String → Nat))
    (rn : FetchResult NotesMap) (nc : CacheEntry NotesMap) (ct : String → Bool)
    (rb : FetchResult (Option BookmarkData)) (cb : CacheEntry BookmarkData)
    (s : ReaderPos) (hnc : nc ≠ .malformed) (hcb : cb ≠ .malformed) :
    (courseLoadEffect cid rc rp rn nc ct).raised = false ∧
    (loadBookmarkEffect topics rb cb s).raised = false := by
  constructor
  · cases rc with
    | err =>
      cases nc with
      | absent => rfl
      | malformed => exact absurd rfl hnc
      | stored n => rfl
    | ok o =>
      cases o with
      | none => rfl
      | some c =>
        cases rn with
        | ok n => rfl
        | err =>
          cases nc with
          | absent => rfl
          | malformed => exact absurd rfl hnc
          | stored n => rfl
  · cases rb with
    | ok bm =>
      cases bm with
      | none => rfl
      | some b =>
        rcases hfi : findTopicIndex topics b.topicId with - | i <;>
          simp [loadBookmarkEffect, hfi]
    | err =>
      cases cb with
      | absent => rfl
      | malformed => exact absurd rfl hcb
      | stored b =>
        rcases hfi : findTopicIndex topics b.topicId with - | i <;>
          simp [loadBookmarkEffect, hfi]

/-- Witness for the amended C9 with parsable (absent) caches. -/
theorem load_effects_no_raise_witness :
    (courseLoadEffect "course1" .err .err .err .absent (fun _ => false)).raised = false ∧
    (loadBookmarkEffect buildFallbackTopics .err .absent ⟨0, 0⟩).raised = false :=
  load_effects_no_raise "course1" buildFallbackTopics .err .err .err .absent
    (fun _ => false) .err .absent ⟨0, 0⟩ (fun h => nomatch h) (fun h => nomatch h)

/-- Half-up rounding is monotone. -/
theorem jsRound_mono {x y : ℚ} (h : x ≤ y) : jsRound x ≤ jsRound y :=
  Int.floor_mono (add_le_add_right h _)

/-- Growing every topic's viewed set pointwise never decreases the
weighted progress percentage. -/
theorem weightedProgress_mono (topics : List Topic) {vp vp' : String → Finset Nat}
    (h : ∀ k, vp k ⊆ vp' k) :
    weightedProgress topics vp ≤ weightedProgress topics vp' := by
  by_cases h0 : totalPagesOf topics = 0
  · simp [weightedProgress, h0]
  · simp only [weightedProgress, if_neg h0]
    apply jsRound_mono
    have hv : viewedCountOf topics vp ≤ viewedCountOf topics vp' :=
      List.sum_le_sum (fun t _ => Finset.card_le_card (h t._id))
    have hvq : ((viewedCountOf topics vp : ℚ)) ≤ (viewedCountOf topics vp' : ℚ) :=
      Nat.cast_le.mpr hv
    gcongr

/-- Each operation only grows the viewed-pages map, given range validity. -/
theorem applyOpVP_superset (topics : List Topic) {vp : String → Finset Nat}
    (hinv : VPInv topics vp) (op : ProgressOp) (k : String) :
    vp k ⊆ applyOpVP topics vp op k := by
  cases op with
  | viewPage tid p =>
    simp only [applyOpVP, markPageViewed]
    split
    · rename_i hk
      exact hk ▸ Finset.subset_insert p (vp tid)
    · exact subset_rfl
  | completeTopic tid =>
    simp only [applyOpVP, completeTopicVP]
    rcases hf : findTopic topics tid with - | t
    · exact subset_rfl
    · simp only
      split
      · rename_i hk
        exact hk ▸ hinv tid t hf
      · exact subset_rfl

/-- Range validity is preserved by every valid operation. -/
theorem applyOpVP_inv (topics : List Topic) {vp : String → Finset Nat}
    (hinv : VPInv topics vp) {op : ProgressOp}
    (hv : validOp topics op = true) :
    VPInv topics (applyOpVP topics vp op) := by
  intro tid t hf
  cases op with
  | viewPage tid' p =>
    simp only [applyOpVP, markPageViewed]
    split
    · rename_i hk
      subst hk
      simp only [validOp, hf, decide_eq_true_eq] at hv
      exact Finset.insert_subset (Finset.mem_range.mpr hv) (hinv tid t hf)
    · exact hinv tid t hf
  | completeTopic tid' =>
    simp only [applyOpVP, completeTopicVP]
    rcases hf' : findTopic topics tid' with - | t'
    · exact hinv tid t hf
    · simp only
      split
      · rename_i hk
        subst hk
        rw [hf] at hf'
        cases hf'
        exact subset_rfl
      · exact hinv tid t hf
  
/-- Range validity is preserved by any valid operation sequence. -/
theorem runOps_inv (topics : List Topic) (ops : List ProgressOp) :
    ∀ vp, VPInv topics vp → (∀ op ∈ ops, validOp topics op = true) →
      VPInv topics (runOps topics ops vp) := by
  induction ops with
  | nil => exact fun vp h _ => h
  | cons op ops ih =>
    intro vp hinv hval
    exact ih _ (applyOpVP_inv topics hinv (hval op (List.mem_cons_self op ops)))
      (fun o ho => hval o (List.mem_cons_of_mem _ ho))

/-- C4: over any sequence of `markPageViewed` / `markTopicComplete` calls
with valid arguments, started from a range-valid viewed-pages map, the
weighted progress after any call is at least the weighted progress before
it — `weightedProgress()` is non-decreasing across the sequence. -/
theorem weightedProgress_nondecreasing (topics : List Topic)
    (vp : String → Finset Nat) (ops : List ProgressOp) (n : Nat)
    (hinv : VPInv topics vp)
    (hval : ∀ op ∈ ops, validOp topics op = true) :
    weightedProgress topics (runOps topics (ops.take n) vp)
      ≤ weightedProgress topics (runOps topics (ops.take (n + 1)) vp) := by
  by_cases hn : n < ops.length
  · have htake : ops.take (n + 1) = ops.take n ++ [ops[n]] := by
      rw [List.take_succ, List.getElem?_eq_getElem hn]
      rfl
    have hrun : runOps topics (ops.take (n + 1)) vp
        = applyOpVP topics (runOps topics (ops.take n) vp) ops[n] := by
      rw [htake]
      simp only [runOps, List.foldl_append, List.foldl_cons, List.foldl_nil]
    rw [hrun]
    have hinv' : VPInv topics (runOps topics (ops.take n) vp) :=
      runOps_inv topics (ops.take n) vp hinv
        (fun o ho => hval o (List.take_subset n ops ho))
    exact weightedProgress_mono topics (applyOpVP_superset topics hinv' ops[n])
  · have hlen : ops.length ≤ n := Nat.le_of_not_lt hn
    rw [List.take_of_length_le hlen,
      List.take_of_length_le (Nat.le_trans hlen (Nat.le_succ n))]

/-- Witness for C4: one step of a concrete valid sequence on the fallback
course, starting from the empty (range-valid) map. -/
theorem weightedProgress_nondecreasing_witness :
    VPInv buildFallbackTopics vpEmpty ∧
    (∀ op ∈ opsEx, validOp buildFallbackTopics op = true) ∧
    weightedProgress buildFallbackTopics (runOps buildFallbackTopics (opsEx.take 1) vpEmpty)
      ≤ weightedProgress buildFallbackTopics
          (runOps buildFallbackTopics (opsEx.take 2) vpEmpty) :=
  ⟨fun _ _ _ => Finset.empty_subset _, by decide,
   weightedProgress_nondecreasing buildFallbackTopics vpEmpty opsEx 1
     (fun _ _ _ => Finset.empty_subset _) (by decide)⟩
